import Mathlib

/-!
Shallow embedding of the subscriber-management core of the
`4g-core-deployment-controller` repository
(`src/4g_core_deployment_controller/models/subscriber.py`,
`routers/core/subscribers.py`, `routers/core/proxy.py`,
`services/mongodb.py`), together with theorems settling the frozen
claims about it.

Conventions of the embedding:
* Python/JSON data is modelled with Lean structures; optional JSON
  fields of the input payloads are `Option`-typed, `none` standing for
  an absent (or JSON-`null`) field.
* The MongoDB `subscribers` collection is a `List SubscriberSchema` in
  storage order; the unique index on `imsi` created by
  `MongoDBService._ensure_indexes` is reflected in the semantics of
  `insertOne` / `replaceOne` (a write that would produce two documents
  with the same `imsi` raises `DuplicateKeyError`).
* Pydantic validation is modelled by `Except String`-valued functions
  translated field by field from the model declarations.  Pydantic
  collects several errors where we stop at the first; acceptance and
  rejection coincide.
* Generated BSON `ObjectId` values are opaque strings passed in as
  parameters (`genId`, `newId`).
-/

/-- JSON-like values, used for the opaque `pcc_rule` payload
(`List[Dict[str, Any]]` in the source) and for proxied response bodies. -/
inductive JsonValue where
  | null : JsonValue
  | bool (b : Bool) : JsonValue
  | num (n : Int) : JsonValue
  | str (s : String) : JsonValue
  | arr (xs : List JsonValue) : JsonValue
  | obj (fields : List (String × JsonValue)) : JsonValue

/-- Model of `clean_hex_spaces` (models/subscriber.py): remove every space
character from the string (`v.replace(" ", "")`). -/
def cleanHexSpaces (s : String) : String :=
  ⟨s.data.filter (fun c => c ≠ ' ')⟩

/-- Character class `[0-9a-fA-F]` of the hex-field patterns. -/
def isHexDigitChar (c : Char) : Bool :=
  ('0' ≤ c && c ≤ '9') || ('a' ≤ c && c ≤ 'f') || ('A' ≤ c && c ≤ 'F')

/-- The pattern `^[0-9a-fA-F]{n}$` backing `Hex32Str` (`n = 32`) and
`Hex4Str` (`n = 4`). -/
def isHexStr (n : Nat) (s : String) : Bool :=
  s.length == n && s.data.all isHexDigitChar

/-- Operational reading of the `ImsiStr` pattern `^[0-9]{14,15}$`:
scan the characters, all must lie in `[0-9]`, and the total count must
be 14 or 15. -/
def imsiMatchGo : List Char → Nat → Bool
  | [], n => 14 ≤ n && n ≤ 15
  | c :: cs, n => ('0' ≤ c && c ≤ '9') && imsiMatchGo cs (n + 1)

/-- Model of the `ImsiStr` validation (models/subscriber.py line 11). -/
def imsiMatch (s : String) : Bool :=
  imsiMatchGo s.data 0

/-- Structure `AmbrValueModel`: AMBR value with unit. -/
structure AmbrValueModel where
  value : Int
  unit : Int

/-- Structure `AmbrModel`: bidirectional AMBR, both directions defaulting to
`AmbrValueModel(value=1000000000, unit=0)`. -/
structure AmbrModel where
  downlink : AmbrValueModel := ⟨1000000000, 0⟩
  uplink : AmbrValueModel := ⟨1000000000, 0⟩

/-- Structure `ArpModel`: allocation and retention priority. -/
structure ArpModel where
  priority_level : Int := 8
  pre_emption_capability : Int := 1
  pre_emption_vulnerability : Int := 2

/-- Structure `QosModel`: QoS profile, `arp` defaulting to a default `ArpModel`. -/
structure QosModel where
  index : Int := 9
  arp : Option ArpModel := some {}

/-- Structure `UeModel`: static IP assignment. -/
structure UeModel where
  ipv4 : Option String := none
  ipv6 : Option String := none

/-- Structure `SessionModel`: session (APN) configuration inside a slice. -/
structure SessionModel where
  name : String := "internet"
  type : Int := 3
  qos : QosModel := {}
  ambr : AmbrModel := {}
  ue : Option UeModel := none
  pcc_rule : List JsonValue := []
  lbo_roaming_allowed : Option Bool := none
  id : Option String := none

/-- Structure `SliceModel`: network slice configuration. -/
structure SliceModel where
  sst : Int := 1
  sd : Option String := some "000001"
  default_indicator : Bool := true
  session : List SessionModel
  id : Option String := none

/-- Structure `SecurityModel`: validated subscriber security credentials. -/
structure SecurityModel where
  k : String
  amf : String := "8000"
  op : Option String := none
  opc : Option String := none

/-- Structure `SubscriberSchema`: the subscriber document stored in MongoDB. -/
structure SubscriberSchema where
  id : Option String := none
  schema_version : Int := 1
  imsi : String
  name : Option String := none
  msisdn : List String := []
  imeisv : List String := []
  mme_host : List String := []
  mm_realm : List String := []
  purge_flag : List Bool := []
  slice : List SliceModel
  security : SecurityModel
  ambr : AmbrModel := {}
  access_restriction_data : Int := 32
  network_access_mode : Int := 0
  subscriber_status : Int := 0
  operator_determined_barring : Int := 0
  subscribed_rau_tau_timer : Int := 12
  v : Int := 0

/-!
Raw (pre-validation) input payloads.  A field of type `Option τ` is
`none` when the JSON field is absent.  Fields whose pydantic type
carries no validator of its own (ints, bools, plain strings, nested
defaulted models such as `QosModel`) are carried at their final type;
only the fields with validators (`ImsiStr`, hex strings, `max_length`,
required sub-models) are re-checked here, exactly as in the source.
For `SliceModel.sd` (an `Optional[str]` whose default is the non-null
`"000001"`) the outer `Option` is field presence and the inner one is
JSON `null`.
-/

/-- Raw input for `SecurityModel`. -/
structure RawSecurity where
  k : Option String := none
  amf : Option String := none
  op : Option String := none
  opc : Option String := none

/-- Raw input for `SessionModel` (every field is defaulted in the
source, so none is required). -/
structure RawSession where
  name : Option String := none
  type : Option Int := none
  qos : Option QosModel := none
  ambr : Option AmbrModel := none
  ue : Option UeModel := none
  pcc_rule : Option (List JsonValue) := none
  lbo_roaming_allowed : Option Bool := none
  id : Option String := none

/-- Raw input for `SliceModel`; `session` is the only field without a
default. -/
structure RawSlice where
  sst : Option Int := none
  sd : Option (Option String) := none
  default_indicator : Option Bool := none
  session : Option (List RawSession) := none
  id : Option String := none

/-- Raw input for `SubscriberSchema`; `imsi`, `slice` and `security`
are the fields without defaults. -/
structure RawSubscriber where
  id : Option String := none
  schema_version : Option Int := none
  imsi : Option String := none
  name : Option String := none
  msisdn : Option (List String) := none
  imeisv : Option (List String) := none
  mme_host : Option (List String) := none
  mm_realm : Option (List String) := none
  purge_flag : Option (List Bool) := none
  slice : Option (List RawSlice) := none
  security : Option RawSecurity := none
  ambr : Option AmbrModel := none
  access_restriction_data : Option Int := none
  network_access_mode : Option Int := none
  subscriber_status : Option Int := none
  operator_determined_barring : Option Int := none
  subscribed_rau_tau_timer : Option Int := none
  v : Option Int := none

/-- Validation of a required hex field of length `n` (`Hex32Str` for
`k`): clean spaces, then match the pattern. -/
def validateRequiredHex (n : Nat) : Option String → Except String String
  | none => .error "Field required"
  | some v =>
    let c := cleanHexSpaces v
    if isHexStr n c then .ok c else .error "String should match pattern"

/-- Validation of a defaulted hex field (`amf : Hex4Str = "8000"`). -/
def validateDefaultHex (n : Nat) (dflt : String) : Option String → Except String String
  | none => .ok dflt
  | some v =>
    let c := cleanHexSpaces v
    if isHexStr n c then .ok c else .error "String should match pattern"

/-- Validation of an optional hex field (`op`, `opc`). -/
def validateOptHex (n : Nat) : Option String → Except String (Option String)
  | none => .ok none
  | some v =>
    let c := cleanHexSpaces v
    if isHexStr n c then .ok (some c) else .error "String should match pattern"

/-- Validation of `SecurityModel`: the four field validations followed by
the `check_op_or_opc` model validator (`if self.op and self.opc` /
`if not self.op and not self.opc`; a validated hex string is non-empty,
so Python truthiness of the fields is exactly `Option.isSome`). -/
def validateSecurity (r : RawSecurity) : Except String SecurityModel :=
  match validateRequiredHex 32 r.k, validateDefaultHex 4 "8000" r.amf,
        validateOptHex 32 r.op, validateOptHex 32 r.opc with
  | .ok k, .ok amf, .ok op, .ok opc =>
    if op.isSome && opc.isSome then
      .error "Provide either OP or OPC, not both."
    else if !op.isSome && !opc.isSome then
      .error "Provide at least one: OP or OPC."
    else
      .ok { k := k, amf := amf, op := op, opc := opc }
  | .error e, _, _, _ => .error e
  | _, .error e, _, _ => .error e
  | _, _, .error e, _ => .error e
  | _, _, _, .error e => .error e

/-- Construction of `SessionModel`: every field is defaulted, no
validator can fail; a missing `id` gets a generated `ObjectId`
(modelled by the opaque `genId`). -/
def validateSession (genId : String) (r : RawSession) : SessionModel :=
  { name := r.name.getD "internet"
    type := r.type.getD 3
    qos := r.qos.getD {}
    ambr := r.ambr.getD {}
    ue := r.ue
    pcc_rule := r.pcc_rule.getD []
    lbo_roaming_allowed := r.lbo_roaming_allowed
    id := some (r.id.getD genId) }

/-- Validation of `SliceModel`: `session` is required (any list, empty
included, is accepted); all other fields are defaulted. -/
def validateSlice (genId : String) (r : RawSlice) : Except String SliceModel :=
  match r.session with
  | none => .error "session: Field required"
  | some ss =>
    .ok { sst := r.sst.getD 1
          sd := r.sd.getD (some "000001")
          default_indicator := r.default_indicator.getD true
          session := ss.map (validateSession genId)
          id := some (r.id.getD genId) }

/-- Element-wise validation of the `slice` list, as pydantic validates
each `SliceModel` item. -/
def validateSlices (genId : String) : List RawSlice → Except String (List SliceModel)
  | [] => .ok []
  | s :: ss =>
    match validateSlice genId s, validateSlices genId ss with
    | .ok v, .ok vs => .ok (v :: vs)
    | .error e, _ => .error e
    | _, .error e => .error e

/-- Pydantic's per-field validation outcome combination: construct the
model when every field validated, otherwise report a validation
error. -/
def combine4 {α β γ δ ρ : Type} (a : Except String α) (b : Except String β)
    (c : Except String γ) (d : Except String δ) (f : α → β → γ → δ → ρ) :
    Except String ρ :=
  match a, b, c, d with
  | .ok x, .ok y, .ok z, .ok w => .ok (f x y z w)
  | .error e, _, _, _ => .error e
  | _, .error e, _, _ => .error e
  | _, _, .error e, _ => .error e
  | _, _, _, .error e => .error e

/-- Validation of the `imsi` field against the `ImsiStr` pattern. -/
def validateImsiField : Option String → Except String String
  | none => .error "imsi: Field required"
  | some v =>
    if imsiMatch v then .ok v else .error "imsi: String should match pattern"

/-- Validation of the optional `name` field against `max_length=100`. -/
def validateNameField : Option String → Except String (Option String)
  | none => .ok none
  | some v =>
    if v.length ≤ 100 then .ok (some v)
    else .error "name: String should have at most 100 characters"

/-- Validation of the required `slice` field. -/
def validateSliceField (genId : String) : Option (List RawSlice) → Except String (List SliceModel)
  | none => .error "slice: Field required"
  | some ss => validateSlices genId ss

/-- Validation of the required `security` field. -/
def validateSecurityField : Option RawSecurity → Except String SecurityModel
  | none => .error "security: Field required"
  | some s => validateSecurity s

/-- Validation of `SubscriberSchema`: `imsi` against `ImsiStr`, `name`
against `max_length=100`, the required `slice` list element-wise, and
the required `security` sub-model; every other field is defaulted. -/
def validateSubscriber (genId : String) (r : RawSubscriber) : Except String SubscriberSchema :=
  combine4 (validateImsiField r.imsi) (validateNameField r.name)
    (validateSliceField genId r.slice) (validateSecurityField r.security)
    (fun im nm sls sec =>
      { id := r.id,
        schema_version := r.schema_version.getD 1,
        imsi := im,
        name := nm,
        msisdn := r.msisdn.getD [],
        imeisv := r.imeisv.getD [],
        mme_host := r.mme_host.getD [],
        mm_realm := r.mm_realm.getD [],
        purge_flag := r.purge_flag.getD [],
        slice := sls,
        security := sec,
        ambr := r.ambr.getD {},
        access_restriction_data := r.access_restriction_data.getD 32,
        network_access_mode := r.network_access_mode.getD 0,
        subscriber_status := r.subscriber_status.getD 0,
        operator_determined_barring := r.operator_determined_barring.getD 0,
        subscribed_rau_tau_timer := r.subscribed_rau_tau_timer.getD 12,
        v := r.v.getD 0 })

/-!
Persistence gateway (`services/mongodb.py` + `routers/core/subscribers.py`).
The collection is a list of documents in storage order; the unique
index on `imsi` (created by `MongoDBService._ensure_indexes`) makes any
write that would leave two documents with the same `imsi` fail with
`DuplicateKeyError`.
-/

/-- HTTP error raised by a handler (`HTTPException(status_code, detail)`). -/
structure HttpError where
  status : Nat
  detail : String
deriving Repr, DecidableEq

/-- Model of `collection.insert_one` under the unique index on `imsi`: fails
with `DuplicateKeyError` when a stored document already has the new
document's `imsi`, otherwise appends in storage order. -/
def insertOne (store : List SubscriberSchema) (doc : SubscriberSchema) :
    Except Unit (List SubscriberSchema) :=
  if store.any (fun r => r.imsi == doc.imsi) then .error ()
  else .ok (store ++ [doc])

/-- Handler `POST /core/subscribers` (`create_subscriber`): insert the payload;
on `DuplicateKeyError` answer 409 naming the payload's IMSI.  `newId`
is the `_id` MongoDB generates for the inserted document.  Returns the
handler outcome together with the collection after the call. -/
def createSubscriber (store : List SubscriberSchema) (data : SubscriberSchema)
    (newId : String) : Except HttpError SubscriberSchema × List SubscriberSchema :=
  match insertOne store { data with id := some newId } with
  | .ok store' => (.ok { data with id := some newId }, store')
  | .error _ =>
    (.error ⟨409, "Subscriber with IMSI " ++ data.imsi ++ " already exists"⟩, store)

/-- Outcome of `collection.replace_one` under the unique `imsi` index. -/
inductive ReplaceOutcome where
  | noMatch : ReplaceOutcome
  | dupKey : ReplaceOutcome
  | replaced (newStore : List SubscriberSchema) : ReplaceOutcome

/-- Split the collection at the first document whose `imsi` equals
`m`: returns the documents before it, the document, and the documents
after it. -/
def splitFirstByImsi : List SubscriberSchema → String →
    Option (List SubscriberSchema × SubscriberSchema × List SubscriberSchema)
  | [], _ => none
  | r :: rs, m =>
    if r.imsi == m then some ([], r, rs)
    else
      match splitFirstByImsi rs m with
      | none => none
      | some (pre, x, suf) => some (r :: pre, x, suf)

/-- Model of `collection.replace_one({"imsi": m}, doc)`: replace the first
document matching the filter; raise `DuplicateKeyError` when the
replacement would leave `doc.imsi` duplicated against any *other*
document; report `matched_count == 0` when nothing matched. -/
def replaceOne (store : List SubscriberSchema) (m : String)
    (doc : SubscriberSchema) : ReplaceOutcome :=
  match splitFirstByImsi store m with
  | none => .noMatch
  | some (pre, _, suf) =>
    if (pre ++ suf).any (fun r => r.imsi == doc.imsi) then .dupKey
    else .replaced (pre ++ doc :: suf)

/-- Handler `PUT /core/subscribers/{imsi}` (`update_subscriber`): dump the
payload, force `update_dict["imsi"] = imsi` (the path identifier wins),
replace; `DuplicateKeyError` becomes 409, `matched_count == 0` becomes
404.  Returns the handler outcome (success message or error) and the
collection after the call. -/
def updateSubscriber (store : List SubscriberSchema) (imsi : String)
    (payload : SubscriberSchema) : Except HttpError String × List SubscriberSchema :=
  match replaceOne store imsi { payload with imsi := imsi } with
  | .dupKey =>
    (.error ⟨409, "Subscriber IMSI " ++ imsi ++ " conflicts with an existing subscriber"⟩,
     store)
  | .noMatch =>
    (.error ⟨404, "Subscriber with IMSI " ++ imsi ++ " not found"⟩, store)
  | .replaced store' => (.ok ("Subscriber " ++ imsi ++ " updated"), store')

/-- The storage-level invariant the unique index maintains: no two
stored documents share an `imsi`. -/
def imsiUnique (store : List SubscriberSchema) : Prop :=
  store.Pairwise (fun a b => a.imsi ≠ b.imsi)

/-!
The `$regex`/`$options: "i"` matcher used by the `name` filter of
`GET /core/subscribers`.  We model the fragment of the PCRE pattern
language the theorems exercise: literal characters and the `.`
metacharacter, matched case-insensitively and unanchored (MongoDB's
`$regex` succeeds when the pattern matches anywhere in the field).
-/

/-- One anchored matching step: `.` matches any character, a literal
matches case-insensitively. -/
def regexMatchHere : List Char → List Char → Bool
  | [], _ => true
  | _ :: _, [] => false
  | a :: p, c :: t => (a == '.' || a.toLower == c.toLower) && regexMatchHere p t

/-- Unanchored search: try to match at every position of the text. -/
def regexSearchI (p : List Char) : List Char → Bool
  | [] => regexMatchHere p []
  | c :: ts => regexMatchHere p (c :: ts) || regexSearchI p ts

/-- Model of `{"$regex": pat, "$options": "i"}` applied to a string field. -/
def mongoRegexI (pat text : String) : Bool :=
  regexSearchI pat.data text.data

/-- The `name` condition of the query: a document matches iff its
`name` field is present and the regex matches it. -/
def nameRegexPred (n : String) (r : SubscriberSchema) : Bool :=
  match r.name with
  | none => false
  | some nm => mongoRegexI n nm

/-- Handler `GET /core/subscribers` (`get_subscribers`): build the query from
the truthy filters (`if name: ...`, `if sst is not None: ...` with an
`$elemMatch` on `slice`, adding `sd` only `if sd:`), then
`find(query).skip(offset).limit(limit)` over the collection in storage
order.  A document whose `name` field is absent never matches a `name`
regex condition. -/
def getSubscribers (store : List SubscriberSchema) (name : Option String)
    (sst : Option Int) (sd : Option String) (limit : Nat) (offset : Nat) :
    List SubscriberSchema :=
  let namePred : SubscriberSchema → Bool := fun r =>
    match name with
    | none => true
    | some n => if n.isEmpty then true else nameRegexPred n r
  let slicePred : SubscriberSchema → Bool := fun r =>
    match sst with
    | none => true
    | some x =>
      r.slice.any (fun sl =>
        sl.sst == x &&
          (match sd with
           | none => true
           | some s => if s.isEmpty then true else sl.sd == some s))
  ((store.filter (fun r => namePred r && slicePred r)).drop offset).take limit

/-!
Backend forwarding layer (`routers/core/proxy.py`).  A forwarded call
makes a single `client.request` attempt; the upstream's behaviour on
the `n`-th attempt is modelled by a function `Nat → UpstreamBehavior`
of which `proxy_request` only ever consults attempt `0` (no retry).
`responds body status` is an upstream HTTP response whose body parses
as JSON iff `body = some j`; a body that is not valid JSON makes
`response.json()` raise, which falls into the generic
`except Exception` arm.
-/

/-- Transport-level behaviour of one upstream attempt. -/
inductive UpstreamBehavior where
  | timeout : UpstreamBehavior
  | connectError (msg : String) : UpstreamBehavior
  | otherError (msg : String) : UpstreamBehavior
  | responds (body : Option JsonValue) (status : Nat) : UpstreamBehavior

/-- The fixed per-call timeout of `AsyncClient(timeout=5.0)`. -/
def proxyTimeoutSeconds : Nat := 5

/-- Body of the 504 outcome (`TimeoutException` arm). -/
def gatewayTimeoutBody (dest : String) : JsonValue :=
  .obj [("error", .str "Gateway timeout"),
        ("detail", .str ("Backend " ++ dest ++ " did not respond in time"))]

/-- Body of the 502 outcome of the `ConnectError` arm. -/
def connectErrorBody (dest : String) : JsonValue :=
  .obj [("error", .str "Bad gateway"),
        ("detail", .str ("Could not connect to " ++ dest))]

/-- Body of the generic 502 outcome of the `except Exception` arm: a
fixed constant, independent of the caught exception's text. -/
def genericBadGatewayBody : JsonValue :=
  .obj [("error", .str "Bad gateway"),
        ("detail", .str "Unexpected error contacting backend")]

/-- Model of `proxy_request`: one attempt against the upstream, mapping each
transport failure to its terminal `(body, status)` outcome. -/
def proxyRequest (dest : String) (upstream : Nat → UpstreamBehavior) :
    JsonValue × Nat :=
  match upstream 0 with
  | .responds (some j) s => (j, s)
  | .responds none _ => (genericBadGatewayBody, 502)
  | .timeout => (gatewayTimeoutBody dest, 504)
  | .connectError _ => (connectErrorBody dest, 502)
  | .otherError _ => (genericBadGatewayBody, 502)

/-!
Claim-side predicates and concrete demonstration values.
-/

/-- Returns `true` iff the validation result is a success (the pydantic model
was constructed). -/
def isAccepted {ε α : Type} : Except ε α → Bool
  | .ok _ => true
  | .error _ => false

/-- ASCII case folding of a character list (the `$options: "i"` flag). -/
def lowerChars (l : List Char) : List Char :=
  l.map Char.toLower

/-- Anchored literal match: the first list is a leading segment of the
second. -/
def leadMatch : List Char → List Char → Bool
  | [], _ => true
  | _ :: _, [] => false
  | a :: p, c :: t => (a == c) && leadMatch p t

/-- Unanchored literal scan: the first list occurs contiguously inside
the second. -/
def subScan (p : List Char) : List Char → Bool
  | [] => leadMatch p []
  | c :: t => leadMatch p (c :: t) || subScan p t

/-- Claim-side reading of "`name` contains `s` as a substring, compared
case-insensitively". -/
def containsSubstringCI (needle hay : String) : Prop :=
  ∃ a b, lowerChars hay.data = a ++ lowerChars needle.data ++ b

/-- The PCRE metacharacters; a filter string free of them is matched
literally by `$regex`. -/
def regexMetachars : List Char :=
  ['\\', '^', '$', '.', '|', '?', '*', '+', '(', ')', '[', ']', '\x7b', '\x7d']

/-- A character `$regex` treats as a literal. -/
def isRegexLiteralChar (c : Char) : Bool :=
  !(regexMetachars.contains c)

/-- Strip every whitespace character (the claim's wording for the hex
fields; the source's `clean_hex_spaces` strips only the space
character). -/
def stripWhitespaceChars (s : String) : String :=
  ⟨s.data.filter (fun c => !c.isWhitespace)⟩

/-- The acceptance condition C3 states for `SecurityModel`, read over a
raw credential input, parameterised by the normalisation applied to the
hex fields: `k` present and 32 hex chars, `amf` 4 hex chars when
present (its default `"8000"` is), and exactly one of `op`/`opc`
present and 32 hex chars. -/
def securityClaimAccepts (strip : String → String) (r : RawSecurity) : Bool :=
  (match r.k with
   | none => false
   | some v => isHexStr 32 (strip v)) &&
  (match r.amf with
   | none => true
   | some v => isHexStr 4 (strip v)) &&
  (match r.op, r.opc with
   | some v, none => isHexStr 32 (strip v)
   | none, some v => isHexStr 32 (strip v)
   | _, _ => false)

/-- C3's wording: hex fields normalised by whitespace stripping. -/
def securityAcceptsWhitespaceStripped (r : RawSecurity) : Bool :=
  securityClaimAccepts stripWhitespaceChars r

/-- The source's behaviour: hex fields normalised by space stripping
(`clean_hex_spaces`). -/
def securityAcceptsSpaceStripped (r : RawSecurity) : Bool :=
  securityClaimAccepts cleanHexSpaces r

/-- A valid raw credential input (spaces inside `opc` exercise
`clean_hex_spaces`). -/
def rawSecOk : RawSecurity :=
  { k := some "00112233445566778899aabbccddeeff"
    opc := some "00 11 22 33 44 55 66 77 88 99 aa bb cc dd ee ff" }

/-- A raw credential input whose `k` holds a tab character: accepted
after whitespace stripping, rejected by the source (which strips only
spaces). -/
def rawSecTab : RawSecurity :=
  { k := some "00112233445566778899aab\tbccddeeff"
    opc := some "00112233445566778899aabbccddeeff" }

/-- Validated demonstration credentials. -/
def demoSecurity : SecurityModel :=
  { k := "00112233445566778899aabbccddeeff"
    opc := some "00112233445566778899aabbccddeeff" }

/-- A slice with one default session and the default `sst = 1`. -/
def demoSlice : SliceModel :=
  { session := [{}] }

/-- A slice with `sst = 7` and no session, for non-matching records. -/
def oddSlice : SliceModel :=
  { sst := 7, session := [] }

/-- Stored subscriber `001010000000001`, named "abc". -/
def subA : SubscriberSchema :=
  { imsi := "001010000000001", name := some "abc"
    slice := [demoSlice], security := demoSecurity }

/-- A second payload carrying the same IMSI as `subA`. -/
def subB : SubscriberSchema :=
  { imsi := "001010000000001", name := some "copy"
    slice := [demoSlice], security := demoSecurity }

/-- A replacement payload with a different embedded IMSI. -/
def subC : SubscriberSchema :=
  { imsi := "001010000000002", name := some "new name"
    slice := [demoSlice], security := demoSecurity }

/-- An unnamed subscriber whose only slice has `sst = 7`. -/
def subD : SubscriberSchema :=
  { imsi := "001010000000003", slice := [oddSlice], security := demoSecurity }

/-- Raw subscriber input whose `slice` field is the empty list. -/
def rawEmptySlices : RawSubscriber :=
  { imsi := some "001010000000001", slice := some [], security := some rawSecOk }

/-- Raw subscriber input with one slice whose `session` field is the
empty list. -/
def rawEmptySession : RawSubscriber :=
  { imsi := some "001010000000001"
    slice := some [{ session := some [] }]
    security := some rawSecOk }

/-- A fully valid raw subscriber input with one slice and one session. -/
def rawDemo : RawSubscriber :=
  { imsi := some "001010000000001"
    name := some "abc"
    slice := some [{ session := some [{}] }]
    security := some rawSecOk }

/-- Raw subscriber input whose `imsi` fails the `ImsiStr` pattern. -/
def rawBadImsi : RawSubscriber :=
  { imsi := some "00101000000000x"
    slice := some [{ session := some [{}] }]
    security := some rawSecOk }

/-!
Helper lemmas.
-/

/-- Scanning from accumulator `n` accepts exactly the all-digit lists
whose total count lands in `[14, 15]`. -/
lemma imsiMatchGo_iff (cs : List Char) (n : Nat) :
    imsiMatchGo cs n = true ↔
      ((14 ≤ n + cs.length ∧ n + cs.length ≤ 15) ∧ ∀ c ∈ cs, c.isDigit = true) := by
  induction cs generalizing n with
  | nil => simp [imsiMatchGo]
  | cons c cs ih =>
    have hdig : (('0' ≤ c && c ≤ '9') : Bool) = c.isDigit := rfl
    simp only [imsiMatchGo, Bool.and_eq_true, ih, List.length_cons, List.mem_cons, hdig]
    constructor
    · rintro ⟨hc, ⟨h1, h2⟩, hall⟩
      refine ⟨⟨by omega, by omega⟩, ?_⟩
      rintro d (rfl | hd)
      · exact hc
      · exact hall d hd
    · rintro ⟨⟨h1, h2⟩, hall⟩
      exact ⟨hall c (Or.inl rfl), ⟨by omega, by omega⟩, fun d hd => hall d (Or.inr hd)⟩

/-- C6: IMSI validation accepts exactly the strings of 14 or 15 decimal
digits; a failing IMSI makes record construction fail. -/
theorem imsi_validation_iff (s : String) :
    (imsiMatch s = true ↔
      ((s.length = 14 ∨ s.length = 15) ∧ ∀ c ∈ s.data, c.isDigit = true)) ∧
    (imsiMatch s = false → ∀ genId r, r.imsi = some s →
      isAccepted (validateSubscriber genId r) = false) := by
  constructor
  · have h := imsiMatchGo_iff s.data 0
    simp only [Nat.zero_add] at h
    rw [imsiMatch, h]
    have hlen : s.length = s.data.length := rfl
    constructor
    · rintro ⟨⟨h1, h2⟩, hall⟩
      exact ⟨by omega, hall⟩
    · rintro ⟨h12, hall⟩
      exact ⟨by omega, hall⟩
  · intro hf genId r hr
    unfold validateSubscriber
    rw [hr]
    simp [hf, isAccepted, validateImsiField, combine4]

/-- Closed instance of `imsi_validation_iff`. -/
theorem imsi_validation_iff_witness :
    imsiMatch "001010000000001" = true ∧
      isAccepted (validateSubscriber "oid" rawBadImsi) = false := by
  constructor
  · exact (imsi_validation_iff "001010000000001").1.mpr (by decide)
  · exact (imsi_validation_iff "00101000000000x").2 (by decide) "oid" rawBadImsi rfl

/-- C1: creating a record whose IMSI already exists in the store fails
with HTTP 409, a detail naming that IMSI, and leaves the store
unchanged. -/
theorem create_duplicate_imsi_conflict (store : List SubscriberSchema)
    (data : SubscriberSchema) (newId x : String)
    (hx : ∃ r ∈ store, r.imsi = x) (hd : data.imsi = x) :
    createSubscriber store data newId =
      (.error ⟨409, "Subscriber with IMSI " ++ x ++ " already exists"⟩, store) := by
  obtain ⟨r₀, hr₀, him⟩ := hx
  have hany : store.any (fun r => r.imsi == ({ data with id := some newId } : SubscriberSchema).imsi) = true := by
    refine List.any_eq_true.mpr ⟨r₀, hr₀, ?_⟩
    simp [him, hd]
  rw [createSubscriber, insertOne, if_pos hany, hd]

/-- Closed instance of `create_duplicate_imsi_conflict`. -/
theorem create_duplicate_imsi_conflict_witness :
    createSubscriber [subA] subB "oid2" =
      (.error ⟨409, "Subscriber with IMSI " ++ "001010000000001" ++ " already exists"⟩,
       [subA]) :=
  create_duplicate_imsi_conflict [subA] subB "oid2" "001010000000001"
    ⟨subA, by simp, rfl⟩ rfl

/-- C5: the proxy maps each transport failure to exactly one terminal
outcome — connection errors to a 502 whose detail names the
destination, a timeout (the fixed 5-second one) to a 504, and any
other failure to a 502 whose body is a fixed constant independent of
the exception text — and consults the upstream exactly once (no
retry). -/
theorem proxy_failure_mapping :
    proxyTimeoutSeconds = 5 ∧
    genericBadGatewayBody =
      JsonValue.obj [("error", JsonValue.str "Bad gateway"),
                     ("detail", JsonValue.str "Unexpected error contacting backend")] ∧
    (∀ dest upstream msg, upstream 0 = UpstreamBehavior.connectError msg →
      proxyRequest dest upstream =
        (JsonValue.obj [("error", JsonValue.str "Bad gateway"),
                        ("detail", JsonValue.str ("Could not connect to " ++ dest))], 502)) ∧
    (∀ dest upstream, upstream 0 = UpstreamBehavior.timeout →
      proxyRequest dest upstream = (gatewayTimeoutBody dest, 504)) ∧
    (∀ dest upstream msg, upstream 0 = UpstreamBehavior.otherError msg →
      proxyRequest dest upstream = (genericBadGatewayBody, 502)) ∧
    (∀ dest u u', u 0 = u' 0 → proxyRequest dest u = proxyRequest dest u') := by
  refine ⟨rfl, rfl, ?_, ?_, ?_, ?_⟩
  · intro dest upstream msg h
    simp [proxyRequest, h, connectErrorBody]
  · intro dest upstream h
    simp [proxyRequest, h]
  · intro dest upstream msg h
    simp [proxyRequest, h]
  · intro dest u u' h
    simp [proxyRequest, h]

/-- Closed instances of `proxy_failure_mapping`. -/
theorem proxy_failure_mapping_witness :
    proxyRequest "http://mme:9091/enb-info" (fun _ => UpstreamBehavior.connectError "ECONNREFUSED") =
      (JsonValue.obj [("error", JsonValue.str "Bad gateway"),
                      ("detail", JsonValue.str ("Could not connect to " ++ "http://mme:9091/enb-info"))], 502) ∧
    proxyRequest "http://smf:9091/pdu-info" (fun _ => UpstreamBehavior.timeout) =
      (gatewayTimeoutBody "http://smf:9091/pdu-info", 504) ∧
    proxyRequest "http://mme:9091/ue-info" (fun _ => UpstreamBehavior.otherError "internal traceback text") =
      (genericBadGatewayBody, 502) ∧
    proxyRequest "http://mme:9091/ue-info" (fun _ => UpstreamBehavior.timeout) =
      proxyRequest "http://mme:9091/ue-info"
        (fun n => if n = 0 then UpstreamBehavior.timeout else UpstreamBehavior.connectError "x") :=
  ⟨proxy_failure_mapping.2.2.1 _ _ _ rfl,
   proxy_failure_mapping.2.2.2.1 _ _ rfl,
   proxy_failure_mapping.2.2.2.2.1 _ _ _ rfl,
   proxy_failure_mapping.2.2.2.2.2 _ _ _ rfl⟩

/-- C9: when the upstream responds but its body is not valid JSON, the
proxy returns the generic 502 outcome; the upstream response is passed
through (body and status unmodified) exactly when the body parses as
JSON. -/
theorem proxy_non_json_body (dest : String) (upstream : Nat → UpstreamBehavior) :
    (∀ s, upstream 0 = UpstreamBehavior.responds none s →
      proxyRequest dest upstream = (genericBadGatewayBody, 502)) ∧
    (∀ j s, upstream 0 = UpstreamBehavior.responds (some j) s →
      proxyRequest dest upstream = (j, s)) := by
  constructor
  · intro s h
    simp [proxyRequest, h]
  · intro j s h
    simp [proxyRequest, h]

/-- Closed instances of `proxy_non_json_body`. -/
theorem proxy_non_json_body_witness :
    proxyRequest "http://mme:9091/enb-info" (fun _ => UpstreamBehavior.responds none 200) =
      (genericBadGatewayBody, 502) ∧
    proxyRequest "http://mme:9091/enb-info"
        (fun _ => UpstreamBehavior.responds (some (JsonValue.str "ok")) 207) =
      (JsonValue.str "ok", 207) :=
  ⟨(proxy_non_json_body "http://mme:9091/enb-info" _).1 200 rfl,
   (proxy_non_json_body "http://mme:9091/enb-info" _).2 (JsonValue.str "ok") 207 rfl⟩

/-- C10: an empty-string `name` filter behaves exactly as an omitted
one, and an empty-string `sd` alongside an `sst` filter is ignored (the
`sd` condition enters the per-slice match only for non-empty strings). -/
theorem empty_string_filters_ignored :
    (∀ store sst sd limit offset,
      getSubscribers store (some "") sst sd limit offset =
        getSubscribers store none sst sd limit offset) ∧
    (∀ store name x limit offset,
      getSubscribers store name (some x) (some "") limit offset =
        getSubscribers store name (some x) none limit offset) := by
  constructor
  · intro store sst sd limit offset
    simp [getSubscribers, show "".isEmpty = true from rfl]
  · intro store name x limit offset
    simp [getSubscribers, show "".isEmpty = true from rfl]

/-- The combination `combine4` succeeds exactly when all four field validations do. -/
lemma isAccepted_combine4 {α β γ δ ρ : Type} (a : Except String α) (b : Except String β)
    (c : Except String γ) (d : Except String δ) (f : α → β → γ → δ → ρ) :
    isAccepted (combine4 a b c d f) =
      (isAccepted a && isAccepted b && isAccepted c && isAccepted d) := by
  cases a <;> cases b <;> cases c <;> cases d <;> rfl

/-- The `slice` list validates exactly when every element carries a
`session` field (of any length, empty included). -/
lemma isAccepted_validateSlices (genId : String) (ss : List RawSlice) :
    isAccepted (validateSlices genId ss) = ss.all (fun sl => sl.session.isSome) := by
  induction ss with
  | nil => rfl
  | cons s ss ih =>
    cases hs : s.session with
    | none => simp [validateSlices, validateSlice, hs, isAccepted]
    | some l =>
      cases hrec : validateSlices genId ss with
      | ok vs =>
        have h2 : ss.all (fun sl => sl.session.isSome) = true := by
          rw [← ih, hrec]; rfl
        simp [validateSlices, validateSlice, hs, hrec, isAccepted, h2]
      | error e =>
        have h2 : ss.all (fun sl => sl.session.isSome) = false := by
          rw [← ih, hrec]; rfl
        simp [validateSlices, validateSlice, hs, hrec, isAccepted, h2]

/-- C3 (counterexample): a credential input whose `k` contains a tab
character satisfies the claim's whitespace-stripped acceptance
condition, yet `SecurityModel` validation rejects it — the source
strips only spaces. -/
theorem security_whitespace_claim_false :
    securityAcceptsWhitespaceStripped rawSecTab = true ∧
      isAccepted (validateSecurity rawSecTab) = false := by
  constructor
  · decide
  · decide

/-- C3 (amended): `SecurityModel` validation accepts iff, after space
characters are stripped from the hex fields, `k` is 32 hex chars,
`amf` (when supplied; its default is) is 4 hex chars, and exactly one
of `op`/`opc` is present and is 32 hex chars. -/
theorem validate_security_accepts_iff (r : RawSecurity) :
    isAccepted (validateSecurity r) = true ↔ securityAcceptsSpaceStripped r = true := by
  obtain ⟨k, amf, op, opc⟩ := r
  cases k <;> cases amf <;> cases op <;> cases opc <;>
    simp only [validateSecurity, validateRequiredHex, validateDefaultHex, validateOptHex,
      securityAcceptsSpaceStripped, securityClaimAccepts, isAccepted] <;>
    (try split_ifs) <;>
    simp_all [isAccepted]

/-- Closed instance of `validate_security_accepts_iff`. -/
theorem validate_security_accepts_iff_witness :
    isAccepted (validateSecurity rawSecOk) = true :=
  (validate_security_accepts_iff rawSecOk).mpr (by decide)

/-- C2 (counterexample): subscriber construction accepts an empty
`slice` list, and accepts a slice whose `session` list is empty; no
non-emptiness is enforced. -/
theorem empty_slices_accepted :
    rawEmptySlices.slice = some [] ∧
      isAccepted (validateSubscriber "oid" rawEmptySlices) = true ∧
      rawEmptySession.slice = some [{ session := some [] }] ∧
      isAccepted (validateSubscriber "oid" rawEmptySession) = true :=
  ⟨rfl, by decide, rfl, by decide⟩

/-- C2 (amended): subscriber validation accepts exactly the inputs
with a present, pattern-matching `imsi`, a `name` of at most 100
characters when present, a present `slice` sequence each of whose
elements carries a present `session` sequence, and a present, valid
`security` — with no requirement that `slice` or any `session` be
non-empty. -/
theorem validate_subscriber_accepts_iff (genId : String) (r : RawSubscriber) :
    isAccepted (validateSubscriber genId r) = true ↔
      ((∃ v, r.imsi = some v ∧ imsiMatch v = true) ∧
       (∀ v, r.name = some v → v.length ≤ 100) ∧
       (∃ ss, r.slice = some ss ∧ ∀ sl ∈ ss, sl.session.isSome = true) ∧
       (∃ s, r.security = some s ∧ isAccepted (validateSecurity s) = true)) := by
  rw [validateSubscriber, isAccepted_combine4]
  simp only [Bool.and_eq_true]
  constructor
  · rintro ⟨⟨⟨h1, h2⟩, h3⟩, h4⟩
    refine ⟨?_, ?_, ?_, ?_⟩
    · cases him : r.imsi with
      | none => rw [him] at h1; simp [validateImsiField, isAccepted] at h1
      | some v =>
        rw [him] at h1
        by_cases hv : imsiMatch v = true
        · exact ⟨v, rfl, hv⟩
        · simp [validateImsiField, hv, isAccepted] at h1
    · intro v hv
      rw [hv] at h2
      by_cases hl : v.length ≤ 100
      · exact hl
      · simp [validateNameField, hl, isAccepted] at h2
    · cases hsl : r.slice with
      | none => rw [hsl] at h3; simp [validateSliceField, isAccepted] at h3
      | some ss =>
        rw [hsl] at h3
        simp only [validateSliceField, isAccepted_validateSlices] at h3
        exact ⟨ss, rfl, by simpa [List.all_eq_true] using h3⟩
    · cases hsec : r.security with
      | none => rw [hsec] at h4; simp [validateSecurityField, isAccepted] at h4
      | some s =>
        rw [hsec] at h4
        simp only [validateSecurityField] at h4
        exact ⟨s, rfl, h4⟩
  · rintro ⟨⟨v, hv, hmv⟩, hname, ⟨ss, hss, hses⟩, ⟨s, hs, hsec⟩⟩
    refine ⟨⟨⟨?_, ?_⟩, ?_⟩, ?_⟩
    · rw [hv]; simp [validateImsiField, hmv, isAccepted]
    · cases hn : r.name with
      | none => simp [validateNameField, isAccepted]
      | some nv => simp [validateNameField, hname nv hn, isAccepted]
    · rw [hss]
      simp only [validateSliceField, isAccepted_validateSlices]
      simpa [List.all_eq_true] using hses
    · rw [hs]
      simp only [validateSecurityField]
      exact hsec

/-- Closed instance of `validate_subscriber_accepts_iff`. -/
theorem validate_subscriber_accepts_iff_witness :
    isAccepted (validateSubscriber "oid" rawDemo) = true :=
  (validate_subscriber_accepts_iff "oid" rawDemo).mpr
    ⟨⟨"001010000000001", rfl, by decide⟩,
     fun v hv => by cases hv; decide,
     ⟨[{ session := some [{}] }], rfl, by simp⟩,
     ⟨rawSecOk, rfl, by decide⟩⟩

/-- C7: `list` with only an `sst` filter (defaults `limit = 100`,
`offset = 0`) returns exactly the stored records having at least one
slice with that `sst` — element-match inside the record's slice array —
and excludes every record with no such slice; exactness holds whenever
the matching records fit the default limit. -/
theorem list_sst_filter (store : List SubscriberSchema) (x : Int) :
    (∀ r ∈ getSubscribers store none (some x) none 100 0,
      r.slice.any (fun sl => sl.sst == x) = true) ∧
    ((store.filter (fun r => r.slice.any (fun sl => sl.sst == x))).length ≤ 100 →
      ∀ r ∈ store,
        (r ∈ getSubscribers store none (some x) none 100 0 ↔ ∃ sl ∈ r.slice, sl.sst = x)) := by
  have hq : getSubscribers store none (some x) none 100 0 =
      (store.filter (fun r => r.slice.any (fun sl => sl.sst == x))).take 100 := by
    simp [getSubscribers]
  constructor
  · intro r hr
    rw [hq] at hr
    exact (List.mem_filter.mp (List.mem_of_mem_take hr)).2
  · intro hlen r hr
    rw [hq, List.take_of_length_le hlen, List.mem_filter]
    simp [hr, List.any_eq_true]

/-- Closed instance of `list_sst_filter`. -/
theorem list_sst_filter_witness :
    subA ∈ getSubscribers [subA, subD] none (some 1) none 100 0 ∧
      subD ∉ getSubscribers [subA, subD] none (some 1) none 100 0 := by
  have h1 := (list_sst_filter [subA, subD] 1).2 (by decide) subA (by simp)
  have h2 := (list_sst_filter [subA, subD] 1).2 (by decide) subD (by simp)
  constructor
  · exact h1.mpr ⟨demoSlice, by simp [subA], rfl⟩
  · rw [h2]
    rintro ⟨sl, hm, he⟩
    simp [subD, oddSlice] at hm
    subst hm
    exact absurd he (by decide)

/-- The function `splitFirstByImsi` finds nothing when no document matches. -/
lemma splitFirstByImsi_eq_none (l : List SubscriberSchema) (m : String)
    (h : ∀ r ∈ l, r.imsi ≠ m) : splitFirstByImsi l m = none := by
  induction l with
  | nil => rfl
  | cons r rs ih =>
    have hr : (r.imsi == m) = false := by
      simpa using h r (List.mem_cons_self r rs)
    simp [splitFirstByImsi, hr, ih (fun x hx => h x (List.mem_cons_of_mem r hx))]

/-- What a successful `splitFirstByImsi` returns: a decomposition of
the list at the first matching document. -/
lemma splitFirstByImsi_eq_some (l : List SubscriberSchema) (m : String)
    (pre : List SubscriberSchema) (x : SubscriberSchema) (suf : List SubscriberSchema)
    (h : splitFirstByImsi l m = some (pre, x, suf)) :
    l = pre ++ x :: suf ∧ x.imsi = m ∧ ∀ r ∈ pre, r.imsi ≠ m := by
  induction l generalizing pre with
  | nil => simp [splitFirstByImsi] at h
  | cons r rs ih =>
    by_cases hr : (r.imsi == m) = true
    · rw [splitFirstByImsi, if_pos hr] at h
      simp only [Option.some.injEq, Prod.mk.injEq] at h
      obtain ⟨h1, h2, h3⟩ := h
      subst h1; subst h2; subst h3
      exact ⟨rfl, by simpa using hr, by simp⟩
    · rw [splitFirstByImsi, if_neg hr] at h
      cases hrec : splitFirstByImsi rs m with
      | none => rw [hrec] at h; simp at h
      | some val =>
        obtain ⟨pre', x', suf'⟩ := val
        rw [hrec] at h
        simp only [Option.some.injEq, Prod.mk.injEq] at h
        obtain ⟨h1, h2, h3⟩ := h
        subst h1; subst h2; subst h3
        obtain ⟨hl, hx, hpre⟩ := ih pre' hrec
        refine ⟨by rw [hl]; rfl, hx, ?_⟩
        intro q hq
        rcases List.mem_cons.mp hq with rfl | hq'
        · simpa using hr
        · exact hpre q hq'

/-- A matching document makes `splitFirstByImsi` succeed. -/
lemma splitFirstByImsi_isSome (l : List SubscriberSchema) (m : String)
    (r₀ : SubscriberSchema) (h : r₀ ∈ l) (him : r₀.imsi = m) :
    ∃ pre x suf, splitFirstByImsi l m = some (pre, x, suf) := by
  induction l with
  | nil => simp at h
  | cons r rs ih =>
    by_cases hr : (r.imsi == m) = true
    · exact ⟨[], r, rs, by rw [splitFirstByImsi, if_pos hr]⟩
    · rcases List.mem_cons.mp h with rfl | h'
      · exact absurd (by simp [him]) hr
      · obtain ⟨pre, x, suf, hs⟩ := ih h'
        exact ⟨r :: pre, x, suf, by rw [splitFirstByImsi, if_neg hr, hs]⟩

/-- Unfolding of `replaceOne` along a successful split. -/
lemma replaceOne_eq_of_split (store : List SubscriberSchema) (m : String)
    (doc : SubscriberSchema) (pre : List SubscriberSchema) (x : SubscriberSchema)
    (suf : List SubscriberSchema) (hs : splitFirstByImsi store m = some (pre, x, suf)) :
    replaceOne store m doc =
      if (pre ++ suf).any (fun r => r.imsi == doc.imsi) then .dupKey
      else .replaced (pre ++ doc :: suf) := by
  rw [replaceOne, hs]

/-- C4: `replace(imsi, record)` stores the payload with its `imsi`
overridden by the path identifier; it answers 409 when the replacement
would collide with a different record's unique key (possible only when
the store already duplicates the path IMSI), 404 when no stored record
has the path IMSI, and otherwise succeeds, rewriting exactly the
matched record and leaving every record with a different IMSI
unchanged. -/
theorem replace_by_imsi_spec (store : List SubscriberSchema) (m : String)
    (p : SubscriberSchema) :
    (2 ≤ (store.filter (fun r => r.imsi == m)).length →
      updateSubscriber store m p =
        (.error ⟨409, "Subscriber IMSI " ++ m ++ " conflicts with an existing subscriber"⟩,
         store)) ∧
    ((∀ r ∈ store, r.imsi ≠ m) →
      updateSubscriber store m p =
        (.error ⟨404, "Subscriber with IMSI " ++ m ++ " not found"⟩, store)) ∧
    (imsiUnique store → ∀ r₀ ∈ store, r₀.imsi = m →
      updateSubscriber store m p =
        (.ok ("Subscriber " ++ m ++ " updated"),
         store.map (fun r => if r.imsi = m then { p with imsi := m } else r))) ∧
    (imsiUnique store → ∀ r ∈ store, r.imsi ≠ m →
      r ∈ (updateSubscriber store m p).2) := by
  have hdoc : ({ p with imsi := m } : SubscriberSchema).imsi = m := rfl
  have h404 : (∀ r ∈ store, r.imsi ≠ m) →
      updateSubscriber store m p =
        (.error ⟨404, "Subscriber with IMSI " ++ m ++ " not found"⟩, store) := by
    intro h
    rw [updateSubscriber, replaceOne, splitFirstByImsi_eq_none store m h]
  have h409 : 2 ≤ (store.filter (fun r => r.imsi == m)).length →
      updateSubscriber store m p =
        (.error ⟨409, "Subscriber IMSI " ++ m ++ " conflicts with an existing subscriber"⟩,
         store) := by
    intro h2
    have hne : store.filter (fun r => r.imsi == m) ≠ [] := by
      intro hnil; rw [hnil] at h2; simp at h2
    obtain ⟨r₀, hr₀⟩ := List.exists_mem_of_ne_nil _ hne
    obtain ⟨hr₀s, hr₀m⟩ := List.mem_filter.mp hr₀
    obtain ⟨pre, x, suf, hs⟩ :=
      splitFirstByImsi_isSome store m r₀ hr₀s (by simpa using hr₀m)
    obtain ⟨hl, hx, hpre⟩ := splitFirstByImsi_eq_some store m pre x suf hs
    have hfilpre : pre.filter (fun r => r.imsi == m) = [] := by
      rw [List.filter_eq_nil_iff]
      intro a ha
      simpa using hpre a ha
    have hfil : store.filter (fun r => r.imsi == m) =
        x :: suf.filter (fun r => r.imsi == m) := by
      rw [hl, List.filter_append, hfilpre, List.filter_cons, if_pos (by simpa using hx)]
      rfl
    have hsuf : suf.any (fun r => r.imsi == m) = true := by
      rw [hfil] at h2
      simp only [List.length_cons] at h2
      have hne2 : suf.filter (fun r => r.imsi == m) ≠ [] := by
        intro hnil; rw [hnil] at h2; simp at h2
      obtain ⟨q, hq⟩ := List.exists_mem_of_ne_nil _ hne2
      obtain ⟨hqs, hqm⟩ := List.mem_filter.mp hq
      exact List.any_eq_true.mpr ⟨q, hqs, hqm⟩
    have hany : (pre ++ suf).any
        (fun r => r.imsi == ({ p with imsi := m } : SubscriberSchema).imsi) = true := by
      simp only [hdoc, List.any_append, Bool.or_eq_true]
      exact Or.inr hsuf
    have hrep : replaceOne store m { p with imsi := m } = .dupKey := by
      rw [replaceOne_eq_of_split store m _ pre x suf hs, if_pos hany]
    rw [updateSubscriber, hrep]
  have hsucc : imsiUnique store → ∀ r₀ ∈ store, r₀.imsi = m →
      updateSubscriber store m p =
        (.ok ("Subscriber " ++ m ++ " updated"),
         store.map (fun r => if r.imsi = m then { p with imsi := m } else r)) := by
    intro huniq r₀ hr₀ him
    obtain ⟨pre, x, suf, hs⟩ := splitFirstByImsi_isSome store m r₀ hr₀ him
    obtain ⟨hl, hx, hpre⟩ := splitFirstByImsi_eq_some store m pre x suf hs
    have huniq' : (pre ++ x :: suf).Pairwise (fun a b => a.imsi ≠ b.imsi) := by
      rw [imsiUnique, hl] at huniq; exact huniq
    have hothers : ∀ q ∈ pre ++ suf, q.imsi ≠ m := by
      intro q hq
      rcases List.mem_append.mp hq with hq' | hq'
      · exact hpre q hq'
      · have hxs := (List.pairwise_append.mp huniq').2.1
        have hxq := (List.pairwise_cons.mp hxs).1 q hq'
        rw [hx] at hxq
        exact fun hc => hxq hc.symm
    have hany : (pre ++ suf).any
        (fun r => r.imsi == ({ p with imsi := m } : SubscriberSchema).imsi) = false := by
      simp only [hdoc]
      rw [List.any_eq_false]
      intro q hq
      simpa using hothers q hq
    have hrep : replaceOne store m { p with imsi := m } =
        .replaced (pre ++ { p with imsi := m } :: suf) := by
      rw [replaceOne_eq_of_split store m _ pre x suf hs, if_neg (by simp [hany])]
    rw [updateSubscriber, hrep]
    have hmapre : pre.map (fun r => if r.imsi = m then { p with imsi := m } else r) = pre := by
      rw [List.map_congr_left (g := id) ?_, List.map_id]
      intro a ha
      simp [if_neg (hpre a ha)]
    have hmapsuf : suf.map (fun r => if r.imsi = m then { p with imsi := m } else r) = suf := by
      rw [List.map_congr_left (g := id) ?_, List.map_id]
      intro a ha
      simp [if_neg (hothers a (List.mem_append.mpr (Or.inr ha)))]
    rw [hl, List.map_append, List.map_cons, hmapre, hmapsuf, if_pos hx]
  refine ⟨h409, h404, hsucc, ?_⟩
  intro huniq r hr hrm
  by_cases hex : ∃ r₀ ∈ store, r₀.imsi = m
  · obtain ⟨r₀, hr₀, him⟩ := hex
    rw [hsucc huniq r₀ hr₀ him]
    exact List.mem_map.mpr ⟨r, hr, by simp [if_neg hrm]⟩
  · have hall : ∀ q ∈ store, q.imsi ≠ m := by
      intro q hq hqm; exact hex ⟨q, hq, hqm⟩
    rw [h404 hall]
    exact hr

/-- Closed instances of `replace_by_imsi_spec`. -/
theorem replace_by_imsi_spec_witness :
    updateSubscriber [subA, subB] "001010000000001" subC =
      (.error ⟨409, "Subscriber IMSI " ++ "001010000000001" ++ " conflicts with an existing subscriber"⟩,
       [subA, subB]) ∧
    updateSubscriber [subA] "999999999999999" subC =
      (.error ⟨404, "Subscriber with IMSI " ++ "999999999999999" ++ " not found"⟩, [subA]) ∧
    updateSubscriber [subA, subD] "001010000000001" subC =
      (.ok ("Subscriber " ++ "001010000000001" ++ " updated"),
       [subA, subD].map
         (fun r => if r.imsi = "001010000000001" then { subC with imsi := "001010000000001" } else r)) ∧
    subD ∈ (updateSubscriber [subA, subD] "001010000000001" subC).2 := by
  have huniq : imsiUnique [subA, subD] := by
    rw [imsiUnique, List.pairwise_pair]
    decide
  refine ⟨?_, ?_, ?_, ?_⟩
  · exact (replace_by_imsi_spec [subA, subB] "001010000000001" subC).1 (by decide)
  · exact (replace_by_imsi_spec [subA] "999999999999999" subC).2.1 (by decide)
  · exact (replace_by_imsi_spec [subA, subD] "001010000000001" subC).2.2.1 huniq subA
      (by simp) rfl
  · exact (replace_by_imsi_spec [subA, subD] "001010000000001" subC).2.2.2 huniq subD
      (by simp) (by decide)

/-- The test `leadMatch p t` holds exactly when `p` is a leading segment of `t`. -/
lemma leadMatch_iff (p t : List Char) : leadMatch p t = true ↔ ∃ b, t = p ++ b := by
  induction p generalizing t with
  | nil => simp [leadMatch]
  | cons a p ih =>
    cases t with
    | nil => simp [leadMatch]
    | cons c ts =>
      simp only [leadMatch, Bool.and_eq_true, beq_iff_eq, ih, List.cons_append,
        List.cons.injEq]
      constructor
      · rintro ⟨rfl, b, rfl⟩
        exact ⟨b, rfl, rfl⟩
      · rintro ⟨b, rfl, rfl⟩
        exact ⟨rfl, b, rfl⟩

/-- The scan `subScan p t` holds exactly when `p` occurs contiguously in `t`. -/
lemma subScan_iff (p t : List Char) : subScan p t = true ↔ ∃ a b, t = a ++ p ++ b := by
  induction t with
  | nil =>
    simp only [subScan, leadMatch_iff]
    constructor
    · rintro ⟨b, hb⟩
      exact ⟨[], b, by simpa using hb⟩
    · rintro ⟨a, b, hab⟩
      have h := hab.symm
      rw [List.append_assoc] at h
      rcases List.append_eq_nil.mp h with ⟨-, h2⟩
      rcases List.append_eq_nil.mp h2 with ⟨hp, hb⟩
      exact ⟨[], by simp [hp]⟩
  | cons c ts ih =>
    simp only [subScan, Bool.or_eq_true, leadMatch_iff, ih]
    constructor
    · rintro (⟨b, hb⟩ | ⟨a, b, hab⟩)
      · exact ⟨[], b, by simpa using hb⟩
      · exact ⟨c :: a, b, by simp [hab]⟩
    · rintro ⟨a, b, hab⟩
      cases a with
      | nil => exact Or.inl ⟨b, by simpa using hab⟩
      | cons a0 as =>
        right
        injection hab with h1 h2
        exact ⟨as, b, h2⟩

/-- On a pattern free of `.`, one anchored matching step is exactly a
case-folded leading-segment test. -/
lemma regexMatchHere_literal (p : List Char) (hp : '.' ∉ p) (t : List Char) :
    regexMatchHere p t = leadMatch (lowerChars p) (lowerChars t) := by
  induction p generalizing t with
  | nil => cases t <;> rfl
  | cons a p ih =>
    have ha : (a == '.') = false := by
      simpa using fun h => hp (by simp [h])
    have hp' : '.' ∉ p := fun h => hp (List.mem_cons_of_mem _ h)
    cases t with
    | nil => simp [regexMatchHere, lowerChars, leadMatch]
    | cons c ts =>
      rw [show lowerChars (a :: p) = a.toLower :: lowerChars p from rfl,
          show lowerChars (c :: ts) = c.toLower :: lowerChars ts from rfl]
      simp only [regexMatchHere, leadMatch, ha, Bool.false_or]
      rw [ih hp']

/-- On a pattern free of `.`, the unanchored search is exactly the
case-folded substring scan. -/
lemma regexSearchI_literal (p : List Char) (hp : '.' ∉ p) (t : List Char) :
    regexSearchI p t = subScan (lowerChars p) (lowerChars t) := by
  induction t with
  | nil =>
    simp [regexSearchI, subScan, regexMatchHere_literal p hp, lowerChars]
  | cons c ts ih =>
    simp only [regexSearchI, subScan, lowerChars, List.map_cons]
    rw [regexMatchHere_literal p hp, ih]
    rfl

/-- For a filter string free of regex metacharacters, the `$regex`
condition is exactly case-insensitive substring containment. -/
lemma mongoRegexI_literal_iff (s nm : String)
    (hlit : ∀ c ∈ s.data, isRegexLiteralChar c = true) :
    mongoRegexI s nm = true ↔ containsSubstringCI s nm := by
  have hdot : '.' ∉ s.data := by
    intro h
    have := hlit '.' h
    simp [isRegexLiteralChar, regexMetachars] at this
  rw [mongoRegexI, regexSearchI_literal s.data hdot, subScan_iff]
  exact Iff.rfl

/-- C8 (counterexample): the filter string is used as a regular
expression, not a literal substring — the filter `"."` returns the
record named `"abc"` although `"abc"` does not contain `"."` as a
case-insensitive substring. -/
theorem name_filter_regex_not_substring :
    getSubscribers [subA] (some ".") none none 100 0 = [subA] ∧
      ¬ containsSubstringCI "." "abc" := by
  constructor
  · rfl
  · intro h
    have h2 : subScan (lowerChars ".".data) (lowerChars "abc".data) = true :=
      (subScan_iff _ _).mpr h
    exact absurd h2 (by decide)

/-- C8 (amended): for every non-empty filter string free of regex
metacharacters, `list` with that `name` filter returns exactly the
records whose `name` contains the filter as a case-insensitive
substring (exactly, whenever the matches fit the default limit 100). -/
theorem list_name_filter_literal (store : List SubscriberSchema) (s : String)
    (hne : s ≠ "") (hlit : ∀ c ∈ s.data, isRegexLiteralChar c = true) :
    (∀ r ∈ getSubscribers store (some s) none none 100 0,
      ∃ nm, r.name = some nm ∧ containsSubstringCI s nm) ∧
    ((store.filter (fun r => nameRegexPred s r)).length ≤ 100 →
      ∀ r ∈ store,
        (r ∈ getSubscribers store (some s) none none 100 0 ↔
          ∃ nm, r.name = some nm ∧ containsSubstringCI s nm)) := by
  have hse : s.isEmpty = false := by
    rw [Bool.eq_false_iff]
    intro h
    exact hne ((String.isEmpty_iff s).mp h)
  have hq : getSubscribers store (some s) none none 100 0 =
      (store.filter (fun r => nameRegexPred s r)).take 100 := by
    simp [getSubscribers, hse]
  constructor
  · intro r hr
    rw [hq] at hr
    have h2 := (List.mem_filter.mp (List.mem_of_mem_take hr)).2
    cases hn : r.name with
    | none => rw [nameRegexPred, hn] at h2; simp at h2
    | some nm =>
      rw [nameRegexPred, hn] at h2
      exact ⟨nm, rfl, (mongoRegexI_literal_iff s nm hlit).mp h2⟩
  · intro hlen r hr
    rw [hq, List.take_of_length_le hlen, List.mem_filter]
    constructor
    · rintro ⟨-, h2⟩
      cases hn : r.name with
      | none => rw [nameRegexPred, hn] at h2; simp at h2
      | some nm =>
        rw [nameRegexPred, hn] at h2
        exact ⟨nm, rfl, (mongoRegexI_literal_iff s nm hlit).mp h2⟩
    · rintro ⟨nm, hnm, hsub⟩
      refine ⟨hr, ?_⟩
      rw [nameRegexPred, hnm]
      exact (mongoRegexI_literal_iff s nm hlit).mpr hsub

/-- Closed instance of `list_name_filter_literal`. -/
theorem list_name_filter_literal_witness :
    subA ∈ getSubscribers [subA, subD] (some "B") none none 100 0 ∧
      subD ∉ getSubscribers [subA, subD] (some "B") none none 100 0 := by
  have h := (list_name_filter_literal [subA, subD] "B" (by decide) (by decide)).2
    (by decide)
  constructor
  · exact (h subA (by simp)).mpr ⟨"abc", rfl, ⟨['a'], ['c'], by decide⟩⟩
  · rw [h subD (by simp)]
    rintro ⟨nm, hnm, -⟩
    simp [subD] at hnm
